import Mathlib

/-!
Verification of the Visa automation bot (account provisioning orchestrator,
session pool, and the account-creation frontend form).

Part I embeds the frontend account-creation form logic
(`validateForm`, `handleSubmit`, `generatePassword`, `generateEmail`)
from the client page source.

Part II models the backend components (SessionPool, Orchestrator, batch
operations, pacing) whose service code is not part of the source tree;
those definitions are modelled from the specification document, as their
doc comments state.
-/

namespace VisaBot

/-! ## Part I: frontend account-creation form (from the client page source) -/

/-- The form fields read by `validateForm` / `handleSubmit` on the
account-creation page.  Fields of the form not consulted by the embedded
functions are elided. -/
structure FormData where
  FirstName : String
  LastName : String
  DateOfBirth : String
  PassportNumber : String
  PassportIssueDate : String
  PassportExpiryDate : String
  PassportIssuePlace : String
  Email : String
  Mobile : String
  Password : String
  ConfirmPassword : String
  deriving DecidableEq

/-- JS string truthiness: a string is falsy exactly when it is empty. -/
def strFalsy (s : String) : Bool := s.data.isEmpty

/-- One entry of the required-field loop: `if (!formData[field])
newErrors[field] = field + ' is required'`. -/
def requiredError (name : String) (v : String) : List (String × String) :=
  if strFalsy v then [(name, name ++ " is required")] else []

/-- The required-field loop of `validateForm`, in source order. -/
def requiredErrors (fd : FormData) : List (String × String) :=
  requiredError "FirstName" fd.FirstName ++
  requiredError "LastName" fd.LastName ++
  requiredError "DateOfBirth" fd.DateOfBirth ++
  requiredError "PassportNumber" fd.PassportNumber ++
  requiredError "PassportIssueDate" fd.PassportIssueDate ++
  requiredError "PassportExpiryDate" fd.PassportExpiryDate ++
  requiredError "PassportIssuePlace" fd.PassportIssuePlace ++
  requiredError "Email" fd.Email ++
  requiredError "Mobile" fd.Mobile ++
  requiredError "Password" fd.Password

/-- `formData.Mobile.startsWith('0')`. -/
def startsWithZero (m : List Char) : Bool :=
  match m with
  | c :: _ => c == '0'
  | [] => false

/-- The test of the mobile pattern: first character in 1-9,
then 7 to 9 further decimal digits, nothing else. -/
def mobileRegexTest (m : List Char) : Bool :=
  match m with
  | [] => false
  | c :: rest =>
      ('1' ≤ c && c ≤ '9') &&
      (7 ≤ rest.length && rest.length ≤ 9) &&
      rest.all (fun d => d.isDigit)

/-- The mobile-specific checks of `validateForm` (run only when the field
is truthy; the leading-zero message takes precedence over the shape
message, mirroring the `else if`). -/
def mobileErrors (m : String) : List (String × String) :=
  if strFalsy m then []
  else if startsWithZero m.data then
    [("Mobile", "Mobile Number Should Not Start With Zero")]
  else if !(mobileRegexTest m.data) then
    [("Mobile", "Mobile number must be 8-10 digits without leading zero")]
  else []

/-- `if (formData.PassportNumber && formData.PassportNumber.length < 6)`. -/
def passportErrors (p : String) : List (String × String) :=
  if !(strFalsy p) && p.data.length < 6 then
    [("PassportNumber", "Passport Number must be at least 6 characters")]
  else []

/-- The character class excluding whitespace and the at-sign. -/
def jsNonSpace (c : Char) : Bool := !(c == '@' || c.isWhitespace)

/-- Whether a dot occurs at a position that leaves at least one character
on each side: the backtracking semantics of a dot between two nonempty
runs of the class above. -/
def hasInnerDot (l : List Char) : Bool :=
  ((l.drop 1).dropLast).contains '.'

/-- The email pattern test: one at-sign, a nonempty whitespace-free local
part, and a domain part containing an interior dot. -/
def emailRegexTest (l : List Char) : Bool :=
  match l.splitOn '@' with
  | [a, b] => !a.isEmpty && a.all jsNonSpace && b.all jsNonSpace && hasInnerDot b
  | _ => false

/-- The email check of `validateForm` (run only when the field is truthy). -/
def emailErrors (e : String) : List (String × String) :=
  if !(strFalsy e) && !(emailRegexTest e.data) then
    [("Email", "Please enter a valid email address")]
  else []

/-- `if (formData.Password && formData.Password.length < 8)`. -/
def passwordErrors (pw : String) : List (String × String) :=
  if !(strFalsy pw) && pw.data.length < 8 then
    [("Password", "Password must be at least 8 characters long")]
  else []

/-- `if (formData.Password !== formData.ConfirmPassword)`. -/
def confirmErrors (fd : FormData) : List (String × String) :=
  if fd.Password ≠ fd.ConfirmPassword then
    [("ConfirmPassword", "Passwords do not match")]
  else []

/-- JS comparison `dateA >= dateB` where `dateA` may be an invalid date
(`none`): any comparison against an invalid date is false. -/
def jsDateGE (a b : Option Int) : Bool :=
  match a, b with
  | some x, some y => y ≤ x
  | _, _ => false

/-- JS comparison `dateA <= dateB` with the same invalid-date semantics. -/
def jsDateLE (a b : Option Int) : Bool :=
  match a, b with
  | some x, some y => x ≤ y
  | _, _ => false

/-- The four date checks of `validateForm`.  `parse` stands for
`new Date(string)` returning a timestamp, `none` for an invalid date;
`today` is the (always valid) current timestamp. -/
def dateErrors (parse : String → Option Int) (today : Int) (fd : FormData) :
    List (String × String) :=
  (if jsDateGE (parse fd.DateOfBirth) (some today) then
    [("DateOfBirth", "Date of birth must be in the past")] else []) ++
  (if jsDateGE (parse fd.PassportIssueDate) (some today) then
    [("PassportIssueDate", "Passport issue date must be in the past")] else []) ++
  (if jsDateLE (parse fd.PassportExpiryDate) (some today) then
    [("PassportExpiryDate", "Passport must not be expired")] else []) ++
  (if jsDateGE (parse fd.PassportIssueDate) (parse fd.PassportExpiryDate) then
    [("PassportExpiryDate", "Passport expiry date must be after issue date")] else [])

/-- All `newErrors` assignments of `validateForm`, in source order.  The
form is valid exactly when no assignment happens. -/
def allErrors (parse : String → Option Int) (today : Int) (fd : FormData) :
    List (String × String) :=
  requiredErrors fd ++ mobileErrors fd.Mobile ++ passportErrors fd.PassportNumber ++
  emailErrors fd.Email ++ passwordErrors fd.Password ++ confirmErrors fd ++
  dateErrors parse today fd

/-- `validateForm`: true iff `Object.keys(newErrors).length === 0`. -/
def validateForm (parse : String → Option Int) (today : Int) (fd : FormData) : Bool :=
  (allErrors parse today fd).isEmpty

/-- `handleSubmit`: returns the request payload sent to the backend, or
`none` when validation fails and the handler returns before any fetch.
The payload's field renaming is identity-like and elided. -/
def handleSubmit (parse : String → Option Int) (today : Int) (fd : FormData) :
    Option FormData :=
  if validateForm parse today fd then some fd else none

/-- `generatePassword`: writes the fixed constant into both password
fields. -/
def generatePassword (fd : FormData) : FormData :=
  { fd with Password := "Tesla2024!", ConfirmPassword := "Tesla2024!" }

/-- The domain list of `generateEmail`. -/
def emailDomains : List String :=
  ["ambisens.site", "ibizamails.info", "ayroutod.shop", "easygmail.shop",
   "liveauto.live", "gmail.com", "yahoo.com", "hotmail.com", "outlook.com"]

/-- `generateEmail`: the timestamp stands for `Date.now()` and `pick`
for the random index draw. -/
def generateEmail (timestamp : Nat) (pick : Fin emailDomains.length)
    (fd : FormData) : FormData :=
  { fd with Email := "harrouche" ++ toString timestamp ++ "@" ++ emailDomains.get pick }

/-! ## Part II: backend components, modelled from the specification

The backend service code (session pool, orchestrator, batch endpoints) is
not part of the source tree; only its documentation and its frontend
callers are.  The definitions below are therefore modelled from the
specification document, as each doc comment states. -/

/-- Modelled from the spec: a `SessionCredential` row of the SessionPool
(backend `proxy_service` is missing from the tree).  Endpoint and session
identifier are irrelevant to selection and elided. -/
structure SessionCredential where
  id : Nat
  region : String
  active : Bool
  usage_count : Nat
  last_used_at : Option Nat
  deriving DecidableEq

/-- Modelled from the spec: the active credentials for a region,
the base set of `acquire`'s selection. -/
def activeFor (pool : List SessionCredential) (region : String) :
    List SessionCredential :=
  pool.filter (fun c => c.active && c.region == region)

/-- The ids of the active credentials for a region. -/
def activeIds (pool : List SessionCredential) (region : String) : List Nat :=
  (activeFor pool region).map (fun c => c.id)

/-- Modelled from the spec: the active credentials for the region whose id
is not in the `RecentUseWindow`. -/
def filteredFor (pool : List SessionCredential) (region : String)
    (w : List Nat) : List SessionCredential :=
  (activeFor pool region).filter (fun c => !(w.contains c.id))

/-- Modelled from the spec: the candidate set `acquire` chooses from:
the window-filtered set, or on its emptiness the full active set
(fallback reuse). -/
def candidates (pool : List SessionCredential) (region : String)
    (w : List Nat) : List SessionCredential :=
  if (filteredFor pool region w).isEmpty then activeFor pool region
  else filteredFor pool region w

/-- Modelled from the spec: push a chosen id into the bounded window,
evicting beyond size `K`. -/
def pushWindow (K : Nat) (i : Nat) (w : List Nat) : List Nat :=
  (i :: w).take K

/-- The per-credential update of a successful `acquire`: bump
`usage_count` and set `last_used_at` of the chosen credential. -/
def bumpOne (now i : Nat) (c : SessionCredential) : SessionCredential :=
  if c.id = i then
    { c with usage_count := c.usage_count + 1, last_used_at := some now }
  else c

/-- Modelled from the spec: bump `usage_count` and set `last_used_at` of
the chosen credential. -/
def bumpUsage (now : Nat) (pool : List SessionCredential) (i : Nat) :
    List SessionCredential :=
  pool.map (bumpOne now i)

/-- The SessionPool's mutable state: credential rows plus the
`RecentUseWindow`. -/
structure PoolState where
  pool : List SessionCredential
  window : List Nat
  deriving DecidableEq

/-- The state change performed by a successful `acquire` choosing id `i`. -/
def acquireUpdate (K now : Nat) (s : PoolState) (i : Nat) : PoolState :=
  ⟨bumpUsage now s.pool i, pushWindow K i s.window⟩

/-- Modelled from the spec: `acquire` fails with `NoAvailableSession`
exactly when no active credential exists for the region. -/
def acquireNoSession (pool : List SessionCredential) (region : String) : Bool :=
  (activeFor pool region).isEmpty

/-- Modelled from the spec: the failure reasons handed to `markFailed`. -/
inductive FailReason
  | Exhausted
  | AuthRejected
  | Timeout
  deriving DecidableEq

/-- Modelled from the spec: whether a failure reason is permanent. -/
def isPermanent : FailReason → Bool
  | .Exhausted => true
  | .AuthRejected => true
  | .Timeout => false

/-- Modelled from the spec: `markFailed` deactivates the credential on a
permanent reason and leaves it untouched on a transient one. -/
def markFailed (c : SessionCredential) (r : FailReason) : SessionCredential :=
  if isPermanent r then { c with active := false } else c

/-- A sequence of ids returnable by consecutive `acquire` calls for one
region: each id names a member of the current candidate set (the random
choice is kept nondeterministic), after which the window and usage data
are updated. -/
def isAcquireSeq (K now : Nat) (region : String) :
    PoolState → List Nat → Bool
  | _, [] => true
  | s, i :: rest =>
      (candidates s.pool region s.window).any (fun c => c.id == i) &&
      isAcquireSeq K now region (acquireUpdate K now s i) rest

/-! ### Orchestrator account state machine (modelled from the spec) -/

/-- Modelled from the spec: the closed per-account status enumeration. -/
inductive AccStatus
  | NotStarted
  | InProgress
  | Done
  | Failed
  deriving DecidableEq

/-- Modelled from the spec: the per-account record tracked by the
Orchestrator: status, `attempt_count`, and the number of pipelines
currently owning the account. -/
structure AccRec where
  status : AccStatus
  attempt_count : Nat
  owners : Nat
  deriving DecidableEq

/-- Point update of the Orchestrator's account table. -/
def setAcc (s : Nat → AccRec) (a : Nat) (r : AccRec) : Nat → AccRec :=
  fun x => if x = a then r else s x

/-- Modelled from the spec: the Orchestrator's serialized account-status
update path.  A requeued retryable attempt keeps the account `InProgress`
and hands ownership to the pipeline of the later scheduling pass;
operator retry re-enters `InProgress` from `Failed` only while
`attempt_count < max_attempts`. -/
inductive OrchStep (maxAttempts : Nat) : (Nat → AccRec) → (Nat → AccRec) → Prop
  | dispatch (s : Nat → AccRec) (a : Nat) :
      (s a).status = .NotStarted →
      OrchStep maxAttempts s (setAcc s a ⟨.InProgress, (s a).attempt_count, 1⟩)
  | succeed (s : Nat → AccRec) (a : Nat) :
      (s a).status = .InProgress →
      OrchStep maxAttempts s (setAcc s a ⟨.Done, (s a).attempt_count + 1, 0⟩)
  | fatal (s : Nat → AccRec) (a : Nat) :
      (s a).status = .InProgress →
      OrchStep maxAttempts s (setAcc s a ⟨.Failed, (s a).attempt_count + 1, 0⟩)
  | requeue (s : Nat → AccRec) (a : Nat) :
      (s a).status = .InProgress →
      (s a).attempt_count + 1 < maxAttempts →
      OrchStep maxAttempts s (setAcc s a ⟨.InProgress, (s a).attempt_count + 1, 1⟩)
  | exhaust (s : Nat → AccRec) (a : Nat) :
      (s a).status = .InProgress →
      maxAttempts ≤ (s a).attempt_count + 1 →
      OrchStep maxAttempts s (setAcc s a ⟨.Failed, (s a).attempt_count + 1, 0⟩)
  | retry (s : Nat → AccRec) (a : Nat) :
      (s a).status = .Failed →
      (s a).attempt_count < maxAttempts →
      OrchStep maxAttempts s (setAcc s a ⟨.InProgress, (s a).attempt_count, 1⟩)

/-- The initial account table: everything `NotStarted`, unowned. -/
def initState : Nat → AccRec := fun _ => ⟨.NotStarted, 0, 0⟩

/-- The states the Orchestrator can reach from the initial table. -/
inductive OrchReachable (maxAttempts : Nat) : (Nat → AccRec) → Prop
  | init : OrchReachable maxAttempts initState
  | step {s s' : Nat → AccRec} :
      OrchReachable maxAttempts s → OrchStep maxAttempts s s' →
      OrchReachable maxAttempts s'

/-- The per-account transitions the spec allows: stay, the forward edges
`NotStarted → InProgress` and `InProgress → {Done, Failed}`, and the one
backward edge `Failed → InProgress` under the attempt bound. -/
def allowedTransition (maxAttempts : Nat) (r r' : AccRec) : Prop :=
  r'.status = r.status ∨
  (r.status = .NotStarted ∧ r'.status = .InProgress) ∨
  (r.status = .InProgress ∧ (r'.status = .Done ∨ r'.status = .Failed)) ∨
  (r.status = .Failed ∧ r'.status = .InProgress ∧ r.attempt_count < maxAttempts)

/-! ### Batch processing and the retry loop (modelled from the spec) -/

/-- Modelled from the spec: an `Account` row as the Orchestrator updates
it.  Identity fields are irrelevant to the batch logic and elided. -/
structure Account where
  id : Nat
  status : AccStatus
  error_message : Option String
  attempt_count : Nat
  deriving DecidableEq

/-- Modelled from the spec: a pipeline's terminal `Outcome`. -/
inductive Outcome
  | Success (remote_id : Nat)
  | Retryable (reason : String)
  | Fatal (reason : String)
  deriving DecidableEq

/-- Modelled from the spec: the Orchestrator's completion handling of one
pipeline run: increment `attempt_count`, update status and
`error_message`, and report whether the account is requeued for a later
scheduling pass (`Retryable` while under the attempt bound). -/
def completeAttempt (maxAttempts : Nat) (o : Outcome) (acc : Account) :
    Account × Bool :=
  let n := acc.attempt_count + 1
  match o with
  | .Success _ => ({ acc with status := .Done, attempt_count := n }, false)
  | .Fatal r =>
      ({ acc with status := .Failed, attempt_count := n,
                  error_message := some r }, false)
  | .Retryable r =>
      if n < maxAttempts then
        ({ acc with status := .InProgress, attempt_count := n,
                    error_message := some r }, true)
      else
        ({ acc with status := .Failed, attempt_count := n,
                    error_message := some r }, false)

/-- Modelled from the spec: the scheduling loop for one account.  The
oracle gives the pipeline outcome of each attempt number; the fuel bounds
the requeue passes. -/
def processAccount (maxAttempts : Nat) (outcomes : Nat → Outcome) :
    Nat → Account → Account
  | 0, acc => acc
  | fuel + 1, acc =>
      let step := completeAttempt maxAttempts (outcomes (acc.attempt_count + 1)) acc
      if step.2 then processAccount maxAttempts outcomes fuel step.1 else step.1

/-- One launched account driven to its terminal state for this call. -/
def runToTerminal (maxAttempts : Nat) (outcomes : Nat → Outcome)
    (acc : Account) : Account :=
  processAccount maxAttempts outcomes (maxAttempts - acc.attempt_count) acc

/-- Run the account when the launch predicate selects it, else leave it. -/
def processIf (maxAttempts : Nat) (outcomes : Nat → Nat → Outcome)
    (pred : Account → Bool) (acc : Account) : Account :=
  if pred acc then runToTerminal maxAttempts (outcomes acc.id) acc else acc

/-- Modelled from the spec: launch a pipeline for every selected account,
wait for all of them (fold over their terminal states), and return the
updated store with the `{successful_count, failed_count}` aggregate.  As
a total function it raises nothing; individual failures live on the
returned `Account` rows. -/
def launchAll (maxAttempts : Nat) (outcomes : Nat → Nat → Outcome)
    (pred : Account → Bool) (store : List Account) :
    List Account × Nat × Nat :=
  let launched := (store.filter pred).map
    (fun acc => runToTerminal maxAttempts (outcomes acc.id) acc)
  (store.map (processIf maxAttempts outcomes pred),
   launched.countP (fun a => decide (a.status = .Done)),
   launched.countP (fun a => decide (a.status = .Failed)))

/-- Modelled from the spec: `submitBatch(account_ids)` launches the
accounts named by the id list. -/
def submitBatch (maxAttempts : Nat) (outcomes : Nat → Nat → Outcome)
    (ids : List Nat) (store : List Account) : List Account × Nat × Nat :=
  launchAll maxAttempts outcomes (fun acc => ids.contains acc.id) store

/-- Modelled from the spec: the accounts `retryFailed()` re-enqueues:
`Failed` with `attempt_count < max_attempts`. -/
def eligibleRetry (maxAttempts : Nat) (acc : Account) : Bool :=
  decide (acc.status = .Failed ∧ acc.attempt_count < maxAttempts)

/-- Modelled from the spec: `retryFailed()` re-enqueues every eligible
`Failed` account and returns the aggregate counts. -/
def retryFailed (maxAttempts : Nat) (outcomes : Nat → Nat → Outcome)
    (store : List Account) : List Account × Nat × Nat :=
  launchAll maxAttempts outcomes (eligibleRetry maxAttempts) store

/-! ### Pacing delay (modelled from the spec) -/

/-- The spec's default lower pacing bound, in seconds. -/
def minDelayDefault : ℚ := 5

/-- The spec's default upper pacing bound, in seconds. -/
def maxDelayDefault : ℚ := 10

/-- Modelled from the spec: the value of a uniform draw from
`[minDelay, maxDelay]`, with `r` the unit-interval random source. -/
def drawDelay (minDelay maxDelay r : ℚ) : ℚ :=
  minDelay + r * (maxDelay - minDelay)

/-- Modelled from the spec: the pacing sleep before stage 1 of one
launch: skipped (no sleep) exactly for the very first launch with an
empty in-flight set, otherwise a uniform draw from the interval. -/
def pacingDelay (minDelay maxDelay r : ℚ)
    (firstLaunch inFlightEmpty : Bool) : Option ℚ :=
  if firstLaunch && inFlightEmpty then none
  else some (drawDelay minDelay maxDelay r)

/-! ### Concrete instances used by the closed witness statements -/

/-- A concrete active credential for the witness pools. -/
def sampleCred (i : Nat) : SessionCredential :=
  ⟨i, "ES", true, 0, none⟩

/-- A six-credential single-region pool (window size 5 plus one). -/
def samplePool : List SessionCredential :=
  [sampleCred 0, sampleCred 1, sampleCred 2, sampleCred 3, sampleCred 4,
   sampleCred 5]

/-- A one-credential pool, for the fallback-reuse witness. -/
def fallbackPool : List SessionCredential := [sampleCred 0]

/-- The outcome oracle of spec Scenario B: `Network` failures on attempts
1 and 2, success on attempt 3. -/
def scenarioOutcomes : Nat → Outcome :=
  fun n => if n ≤ 2 then .Retryable "Network" else .Success 0

/-- The account of spec Scenario B, before any attempt. -/
def scenarioAccount : Account := ⟨1, .NotStarted, none, 0⟩

/-- An outcome oracle that always succeeds, for batch witnesses. -/
def allSucceed : Nat → Nat → Outcome := fun _ _ => .Success 0

/-- A store with one finished account, for the retry no-op witness. -/
def doneStore : List Account := [⟨1, .Done, none, 1⟩]

/-- A store with one fresh account, for the batch witness. -/
def freshStore : List Account := [⟨1, .NotStarted, none, 0⟩]

/-- A fully valid concrete form whose `Mobile` starts with a zero. -/
def zeroMobileForm : FormData :=
  ⟨"Ahmed", "Benali", "1990-05-15", "123456789", "2020-01-15", "2030-01-15",
   "Algiers", "ahmed@example.com", "0555123456", "SecurePass123!",
   "SecurePass123!"⟩

/-- A date parser that treats every string as an invalid date, usable as
a concrete `parse` argument. -/
def noParse : String → Option Int := fun _ => none

/-! ## Helper lemmas -/

lemma mem_candidates_active {pool : List SessionCredential} {region : String}
    {w : List Nat} {c : SessionCredential} (h : c ∈ candidates pool region w) :
    c ∈ activeFor pool region := by
  unfold candidates at h
  split at h
  · exact h
  · exact List.mem_of_mem_filter h

lemma bumpOne_active (now i : Nat) (c : SessionCredential) :
    (bumpOne now i c).active = c.active := by
  unfold bumpOne; split <;> rfl

lemma bumpOne_region (now i : Nat) (c : SessionCredential) :
    (bumpOne now i c).region = c.region := by
  unfold bumpOne; split <;> rfl

lemma bumpOne_id (now i : Nat) (c : SessionCredential) :
    (bumpOne now i c).id = c.id := by
  unfold bumpOne; split <;> rfl

lemma activeIds_bumpUsage (now : Nat) (region : String) (i : Nat)
    (pool : List SessionCredential) :
    activeIds (bumpUsage now pool i) region = activeIds pool region := by
  induction pool with
  | nil => rfl
  | cons c tl ih =>
    unfold activeIds activeFor bumpUsage at *
    simp only [List.map_cons, List.filter_cons, bumpOne_active, bumpOne_region]
    split
    · simp only [List.map_cons, bumpOne_id]
      rw [ih]
    · exact ih

lemma candidates_not_in_window {K : Nat} {pool : List SessionCredential}
    {region : String} {w : List Nat} {c : SessionCredential}
    (hnd : (activeIds pool region).Nodup)
    (hcount : K + 1 ≤ (activeIds pool region).length)
    (hw : w.length ≤ K)
    (hc : c ∈ candidates pool region w) :
    c.id ∉ w := by
  have hfil : filteredFor pool region w ≠ [] := by
    intro hempty
    have hsub : activeIds pool region ⊆ w := by
      intro x hx
      obtain ⟨c', hc', hcx⟩ := List.mem_map.1 hx
      by_contra hxw
      have hmem : c' ∈ filteredFor pool region w := by
        refine List.mem_filter.2 ⟨hc', ?_⟩
        simp [hcx, hxw]
      rw [hempty] at hmem
      exact (List.not_mem_nil c') hmem
    have hle := (List.subperm_of_subset hnd hsub).length_le
    omega
  have hcand : candidates pool region w = filteredFor pool region w := by
    unfold candidates
    rw [if_neg]
    simpa [List.isEmpty_iff] using hfil
  rw [hcand] at hc
  have hp := List.of_mem_filter hc
  simpa using hp

lemma acquireSeq_nodup_aux (K now : Nat) (region : String) :
    ∀ (ids : List Nat) (pool : List SessionCredential) (w : List Nat),
      (activeIds pool region).Nodup →
      K + 1 ≤ (activeIds pool region).length →
      w.length ≤ K →
      ids.length ≤ K →
      isAcquireSeq K now region ⟨pool, w⟩ ids = true →
      ids.Nodup ∧ ∀ x ∈ ids, x ∉ w.take (K - ids.length) := by
  intro ids
  induction ids with
  | nil => intro pool w _ _ _ _ _; simp
  | cons i tl ih =>
    intro pool w hnd hcount hw hlen hseq
    rw [isAcquireSeq, Bool.and_eq_true] at hseq
    obtain ⟨hany, hrest⟩ := hseq
    obtain ⟨c, hcmem, hcid⟩ := List.any_eq_true.1 hany
    have hcid' : c.id = i := by simpa using hcid
    have hnotin : c.id ∉ w := candidates_not_in_window hnd hcount hw hcmem
    have hiw : i ∉ w := hcid' ▸ hnotin
    have hlen' : tl.length + 1 ≤ K := by simpa using hlen
    have hnd' : (activeIds (bumpUsage now pool i) region).Nodup := by
      rw [activeIds_bumpUsage]; exact hnd
    have hcount' : K + 1 ≤ (activeIds (bumpUsage now pool i) region).length := by
      rw [activeIds_bumpUsage]; exact hcount
    have hw' : (pushWindow K i w).length ≤ K := by
      simp [pushWindow]
    obtain ⟨htlnd, htlavoid⟩ :=
      ih (bumpUsage now pool i) (pushWindow K i w) hnd' hcount' hw'
        (by omega) hrest
    have htake : (pushWindow K i w).take (K - tl.length) =
        i :: w.take (K - (tl.length + 1)) := by
      unfold pushWindow
      rw [List.take_take]
      have hmin : min (K - tl.length) K = K - tl.length := by omega
      rw [hmin]
      obtain ⟨m, hm⟩ : ∃ m, K - tl.length = m + 1 := ⟨K - tl.length - 1, by omega⟩
      rw [hm, List.take_succ_cons]
      have : m = K - (tl.length + 1) := by omega
      rw [this]
    rw [htake] at htlavoid
    constructor
    · refine List.nodup_cons.2 ⟨?_, htlnd⟩
      intro hmem
      exact htlavoid i hmem (List.mem_cons_self i _)
    · intro x hx
      rcases List.mem_cons.1 hx with hxi | hxtl
      · subst hxi
        intro hmem
        exact hiw (List.take_subset _ _ hmem)
      · intro hmem
        have hx' := htlavoid x hxtl
        apply hx'
        apply List.mem_cons_of_mem
        have : (i :: tl).length = tl.length + 1 := rfl
        rw [this] at hmem
        exact hmem

lemma orch_owner_inv (maxA : Nat) {s : Nat → AccRec}
    (h : OrchReachable maxA s) :
    ∀ a, ((s a).status = .InProgress ↔ (s a).owners = 1) ∧
      ((s a).status ≠ .InProgress → (s a).owners = 0) := by
  induction h with
  | init => intro a; simp [initState]
  | @step s₁ s₂ _ hstep ih =>
    intro a
    cases hstep with
    | dispatch b hb =>
      by_cases hab : a = b
      · subst hab; simp [setAcc]
      · simp only [setAcc, if_neg hab]; exact ih a
    | succeed b hb =>
      by_cases hab : a = b
      · subst hab; simp [setAcc]
      · simp only [setAcc, if_neg hab]; exact ih a
    | fatal b hb =>
      by_cases hab : a = b
      · subst hab; simp [setAcc]
      · simp only [setAcc, if_neg hab]; exact ih a
    | requeue b hb hcnt =>
      by_cases hab : a = b
      · subst hab; simp [setAcc]
      · simp only [setAcc, if_neg hab]; exact ih a
    | exhaust b hb hcnt =>
      by_cases hab : a = b
      · subst hab; simp [setAcc]
      · simp only [setAcc, if_neg hab]; exact ih a
    | retry b hb hcnt =>
      by_cases hab : a = b
      · subst hab; simp [setAcc]
      · simp only [setAcc, if_neg hab]; exact ih a

lemma orch_step_allowed {maxA : Nat} {s s' : Nat → AccRec}
    (hstep : OrchStep maxA s s') :
    ∀ a, allowedTransition maxA (s a) (s' a) ∧
      ((s a).status = .Done → (s' a).status = .Done) := by
  intro a
  cases hstep with
  | dispatch b hb =>
    by_cases hab : a = b
    · subst hab
      refine ⟨Or.inr (Or.inl ⟨hb, by simp [setAcc]⟩), ?_⟩
      intro hd; rw [hb] at hd; exact absurd hd (by intro h'; cases h')
    · exact ⟨Or.inl (by simp [setAcc, hab]), by simp [setAcc, hab]⟩
  | succeed b hb =>
    by_cases hab : a = b
    · subst hab
      refine ⟨Or.inr (Or.inr (Or.inl ⟨hb, Or.inl (by simp [setAcc])⟩)), ?_⟩
      intro hd; rw [hb] at hd; exact absurd hd (by intro h'; cases h')
    · exact ⟨Or.inl (by simp [setAcc, hab]), by simp [setAcc, hab]⟩
  | fatal b hb =>
    by_cases hab : a = b
    · subst hab
      refine ⟨Or.inr (Or.inr (Or.inl ⟨hb, Or.inr (by simp [setAcc])⟩)), ?_⟩
      intro hd; rw [hb] at hd; exact absurd hd (by intro h'; cases h')
    · exact ⟨Or.inl (by simp [setAcc, hab]), by simp [setAcc, hab]⟩
  | requeue b hb hcnt =>
    by_cases hab : a = b
    · subst hab
      refine ⟨Or.inl (by simp [setAcc, hb]), ?_⟩
      intro hd; rw [hb] at hd; exact absurd hd (by intro h'; cases h')
    · exact ⟨Or.inl (by simp [setAcc, hab]), by simp [setAcc, hab]⟩
  | exhaust b hb hcnt =>
    by_cases hab : a = b
    · subst hab
      refine ⟨Or.inr (Or.inr (Or.inl ⟨hb, Or.inr (by simp [setAcc])⟩)), ?_⟩
      intro hd; rw [hb] at hd; exact absurd hd (by intro h'; cases h')
    · exact ⟨Or.inl (by simp [setAcc, hab]), by simp [setAcc, hab]⟩
  | retry b hb hcnt =>
    by_cases hab : a = b
    · subst hab
      refine ⟨Or.inr (Or.inr (Or.inr ⟨hb, by simp [setAcc], hcnt⟩)), ?_⟩
      intro hd; rw [hb] at hd; exact absurd hd (by intro h'; cases h')
    · exact ⟨Or.inl (by simp [setAcc, hab]), by simp [setAcc, hab]⟩

lemma processAccount_terminal (maxAttempts : Nat) (outcomes : Nat → Outcome) :
    ∀ (fuel : Nat) (acc : Account),
      acc.attempt_count < maxAttempts →
      maxAttempts ≤ acc.attempt_count + fuel →
      (processAccount maxAttempts outcomes fuel acc).status = .Done ∨
      (processAccount maxAttempts outcomes fuel acc).status = .Failed := by
  intro fuel
  induction fuel with
  | zero => intro acc hlt hle; omega
  | succ fuel ih =>
    intro acc hlt hle
    rw [processAccount]
    cases houtcome : outcomes (acc.attempt_count + 1) with
    | Success rid => simp [completeAttempt, houtcome]
    | Fatal r => simp [completeAttempt, houtcome]
    | Retryable r =>
      simp only [completeAttempt, houtcome]
      by_cases hb : acc.attempt_count + 1 < maxAttempts
      · simp only [if_pos hb]
        exact ih _ (by simpa using hb) (by simp; omega)
      · simp [if_neg hb]

lemma processAccount_failed_recorded (maxAttempts : Nat)
    (outcomes : Nat → Outcome) :
    ∀ (fuel : Nat) (acc : Account),
      1 ≤ fuel →
      (processAccount maxAttempts outcomes fuel acc).status = .Failed →
      (processAccount maxAttempts outcomes fuel acc).error_message.isSome ∧
      acc.attempt_count < (processAccount maxAttempts outcomes fuel acc).attempt_count := by
  intro fuel
  induction fuel with
  | zero =>
    intro acc hfuel hfail
    omega
  | succ fuel ih =>
    intro acc _ hfail
    rw [processAccount] at hfail ⊢
    cases houtcome : outcomes (acc.attempt_count + 1) with
    | Success rid =>
      simp [completeAttempt, houtcome] at hfail
    | Fatal r =>
      refine ⟨?_, ?_⟩ <;> simp [completeAttempt, houtcome]
    | Retryable r =>
      by_cases hb : acc.attempt_count + 1 < maxAttempts
      · simp only [completeAttempt, houtcome, if_pos hb] at hfail ⊢
        rcases Nat.eq_zero_or_pos fuel with hf0 | hfpos
        · subst hf0
          simp [processAccount] at hfail
        · have hstep := ih _ hfpos hfail
          exact ⟨hstep.1, Nat.lt_of_succ_lt hstep.2⟩
      · refine ⟨?_, ?_⟩ <;> simp [completeAttempt, houtcome, hb]

lemma runToTerminal_spec (maxAttempts : Nat) (outcomes : Nat → Outcome)
    (acc : Account) (h : acc.attempt_count < maxAttempts) :
    ((runToTerminal maxAttempts outcomes acc).status = .Done ∨
     (runToTerminal maxAttempts outcomes acc).status = .Failed) ∧
    ((runToTerminal maxAttempts outcomes acc).status = .Failed →
      (runToTerminal maxAttempts outcomes acc).error_message.isSome ∧
      acc.attempt_count < (runToTerminal maxAttempts outcomes acc).attempt_count) := by
  unfold runToTerminal
  exact ⟨processAccount_terminal maxAttempts outcomes _ acc h (by omega),
    fun hf => processAccount_failed_recorded maxAttempts outcomes _ acc (by omega) hf⟩

lemma countP_done_failed_length {l : List Account}
    (h : ∀ a ∈ l, a.status = .Done ∨ a.status = .Failed) :
    l.countP (fun a => decide (a.status = .Done)) +
      l.countP (fun a => decide (a.status = .Failed)) = l.length := by
  induction l with
  | nil => simp
  | cons a tl ih =>
    have ha := h a (List.mem_cons_self a tl)
    have htl := ih (fun x hx => h x (List.mem_cons_of_mem a hx))
    rcases ha with hd | hf
    · simp [List.countP_cons, hd]
      omega
    · simp [List.countP_cons, hf]
      omega

lemma allErrors_ne_nil_of_badMobile (parse : String → Option Int)
    (today : Int) (fd : FormData)
    (hbad : startsWithZero fd.Mobile.data = true ∨
      mobileRegexTest fd.Mobile.data = false) :
    allErrors parse today fd ≠ [] := by
  intro hnil
  unfold allErrors at hnil
  have a1 := List.append_eq_nil.mp hnil
  have a2 := List.append_eq_nil.mp a1.1
  have a3 := List.append_eq_nil.mp a2.1
  have a4 := List.append_eq_nil.mp a3.1
  have a5 := List.append_eq_nil.mp a4.1
  have a6 := List.append_eq_nil.mp a5.1
  have hreq := a6.1
  have hmob := a6.2
  by_cases hempty : fd.Mobile.data = []
  · unfold requiredErrors at hreq
    have b1 := List.append_eq_nil.mp hreq
    have b2 := List.append_eq_nil.mp b1.1
    have hreqmob := b2.2
    unfold requiredError at hreqmob
    rw [if_pos (by simp [strFalsy, hempty])] at hreqmob
    exact List.cons_ne_nil _ _ hreqmob
  · unfold mobileErrors at hmob
    rw [if_neg (by simp [strFalsy, hempty])] at hmob
    rcases hbad with h0 | hreg
    · rw [if_pos h0] at hmob
      exact List.cons_ne_nil _ _ hmob
    · by_cases h0 : startsWithZero fd.Mobile.data = true
      · rw [if_pos h0] at hmob
        exact List.cons_ne_nil _ _ hmob
      · rw [if_neg h0, if_pos (by simp [hreg])] at hmob
        exact List.cons_ne_nil _ _ hmob

lemma mobileErrors_nil_of_valid (m : String) (c : Char) (rest : List Char)
    (hm : m.data = c :: rest) (h1 : '1' ≤ c) (h9 : c ≤ '9')
    (hall : rest.all (fun d => d.isDigit) = true)
    (h7 : 7 ≤ rest.length) (h9' : rest.length ≤ 9) :
    mobileErrors m = [] := by
  have hc0 : ¬ c = '0' := by
    intro h
    subst h
    exact absurd h1 (by decide)
  have hsf : strFalsy m = false := by simp [strFalsy, hm]
  have hsz : startsWithZero (c :: rest) = false := by
    simp [startsWithZero, hc0]
  have hreg : mobileRegexTest (c :: rest) = true := by
    simp only [mobileRegexTest, Bool.and_eq_true, decide_eq_true_eq]
    exact ⟨⟨⟨h1, h9⟩, h7, h9'⟩, hall⟩
  simp [mobileErrors, hsf, hm, hsz, hreg]

/-! ## Claim theorems -/

/-- C1: with `N ≥ K+1` distinct active same-region credentials, `acquire`
never returns an id currently in the `RecentUseWindow`, and no id repeats
within any `K` consecutive `acquire` calls for that region. -/
theorem acquire_no_repeat_within_window (K now : Nat) (region : String)
    (pool : List SessionCredential) (w ids : List Nat)
    (hnd : (activeIds pool region).Nodup)
    (hcount : K + 1 ≤ (activeIds pool region).length)
    (hw : w.length ≤ K) :
    (∀ c ∈ candidates pool region w, c.id ∉ w) ∧
    (ids.length ≤ K → isAcquireSeq K now region ⟨pool, w⟩ ids = true →
      ids.Nodup) := by
  constructor
  · intro c hc
    exact candidates_not_in_window hnd hcount hw hc
  · intro hlen hseq
    exact (acquireSeq_nodup_aux K now region ids pool w hnd hcount hw
      hlen hseq).1

/-- Witness for C1: six distinct active credentials, window size 5, a
five-call acquire sequence with no repeats, starting from an empty
window. -/
theorem acquire_no_repeat_within_window_witness :
    ([0, 1, 2, 3, 4] : List Nat).Nodup ∧
    ∀ c ∈ candidates samplePool "ES" [], c.id ∉ ([] : List Nat) :=
  ⟨(acquire_no_repeat_within_window 5 0 "ES" samplePool [] [0, 1, 2, 3, 4]
      (by decide) (by decide) (by decide)).2 (by decide) (by decide),
   (acquire_no_repeat_within_window 5 0 "ES" samplePool [] [0, 1, 2, 3, 4]
      (by decide) (by decide) (by decide)).1⟩

/-- C2: in every reachable Orchestrator state an account is `InProgress`
iff exactly one pipeline owns it; every step's per-account transition is
allowed (monotone except the bounded `Failed → InProgress` retry), and no
step leaves `Done`. -/
theorem orchestrator_state_machine (maxAttempts : Nat) (s : Nat → AccRec)
    (h : OrchReachable maxAttempts s) :
    (∀ a, (s a).status = .InProgress ↔ (s a).owners = 1) ∧
    (∀ s', OrchStep maxAttempts s s' → ∀ a,
        allowedTransition maxAttempts (s a) (s' a) ∧
        ((s a).status = .Done → (s' a).status = .Done)) := by
  refine ⟨fun a => (orch_owner_inv maxAttempts h a).1, ?_⟩
  intro s' hstep a
  exact orch_step_allowed hstep a

/-- Witness for C2 at the initial state. -/
theorem orchestrator_state_machine_witness :
    (∀ a, (initState a).status = .InProgress ↔ (initState a).owners = 1) ∧
    (∀ s', OrchStep 3 initState s' → ∀ a,
        allowedTransition 3 (initState a) (s' a) ∧
        ((initState a).status = .Done → (s' a).status = .Done)) :=
  orchestrator_state_machine 3 initState OrchReachable.init

/-- C3: `submitBatch` keeps every store row, drives each launched account
to a terminal state before the aggregate is formed, records each failure
on the row's `error_message`/`attempt_count`, and returns counts whose
sum is the number of launched accounts; being a total function it raises
nothing for individual failures. -/
theorem submitBatch_terminal_counts (maxAttempts : Nat)
    (outcomes : Nat → Nat → Outcome) (ids : List Nat) (store : List Account)
    (hatt : ∀ acc ∈ store, acc.attempt_count < maxAttempts) :
    ((submitBatch maxAttempts outcomes ids store).1.length = store.length) ∧
    (∀ i : Nat, ((submitBatch maxAttempts outcomes ids store).1)[i]? =
        (store[i]?).map
          (processIf maxAttempts outcomes (fun acc => ids.contains acc.id))) ∧
    (∀ acc ∈ store, ids.contains acc.id = true →
        ((runToTerminal maxAttempts (outcomes acc.id) acc).status = .Done ∨
         (runToTerminal maxAttempts (outcomes acc.id) acc).status = .Failed) ∧
        ((runToTerminal maxAttempts (outcomes acc.id) acc).status = .Failed →
          (runToTerminal maxAttempts (outcomes acc.id) acc).error_message.isSome ∧
          acc.attempt_count <
            (runToTerminal maxAttempts (outcomes acc.id) acc).attempt_count)) ∧
    ((submitBatch maxAttempts outcomes ids store).2.1 +
      (submitBatch maxAttempts outcomes ids store).2.2 =
      (store.filter (fun acc => ids.contains acc.id)).length) := by
  refine ⟨?_, ?_, ?_, ?_⟩
  · simp [submitBatch, launchAll]
  · intro i
    simp [submitBatch, launchAll, List.getElem?_map]
  · intro acc hacc hin
    exact runToTerminal_spec maxAttempts (outcomes acc.id) acc (hatt acc hacc)
  · simp only [submitBatch, launchAll]
    rw [countP_done_failed_length, List.length_map]
    intro a ha
    obtain ⟨acc, hacc, rfl⟩ := List.mem_map.1 ha
    have hacc' : acc ∈ store := List.mem_of_mem_filter hacc
    exact (runToTerminal_spec maxAttempts (outcomes acc.id) acc
      (hatt acc hacc')).1

/-- Witness for C3 on a one-account fresh store. -/
theorem submitBatch_terminal_counts_witness :
    ((submitBatch 3 allSucceed [1] freshStore).1.length = freshStore.length) ∧
    ((submitBatch 3 allSucceed [1] freshStore).2.1 +
      (submitBatch 3 allSucceed [1] freshStore).2.2 =
      (freshStore.filter (fun acc => List.contains [1] acc.id)).length) :=
  ⟨(submitBatch_terminal_counts 3 allSucceed [1] freshStore (by decide)).1,
   (submitBatch_terminal_counts 3 allSucceed [1] freshStore (by decide)).2.2.2⟩

/-- C4: a `Retryable` outcome under the attempt bound increments
`attempt_count` and requeues without terminal `Failed`; at the bound (or
on `Fatal`) the account is terminal `Failed`; and Scenario B (two
`Network` failures then success with `max_attempts = 3`) ends `Done` with
`attempt_count = 3`. -/
theorem retryable_requeue_semantics (maxAttempts : Nat) (reason : String)
    (acc : Account) (h : acc.attempt_count + 1 < maxAttempts) :
    ((completeAttempt maxAttempts (.Retryable reason) acc).1.attempt_count =
        acc.attempt_count + 1 ∧
      (completeAttempt maxAttempts (.Retryable reason) acc).1.status ≠ .Failed ∧
      (completeAttempt maxAttempts (.Retryable reason) acc).2 = true) ∧
    (∀ acc' : Account, maxAttempts ≤ acc'.attempt_count + 1 →
        (completeAttempt maxAttempts (.Retryable reason) acc').1.status =
          .Failed) ∧
    (∀ (acc' : Account) (fatalReason : String),
        (completeAttempt maxAttempts (.Fatal fatalReason) acc').1.status =
          .Failed) ∧
    ((runToTerminal 3 scenarioOutcomes scenarioAccount).status = .Done ∧
      (runToTerminal 3 scenarioOutcomes scenarioAccount).attempt_count = 3) := by
  refine ⟨?_, ?_, ?_, ?_⟩
  · refine ⟨by simp [completeAttempt, h], ?_, by simp [completeAttempt, h]⟩
    simp only [completeAttempt, if_pos h]
    intro h'
    simp at h'
  · intro acc' hge
    have hnot : ¬ acc'.attempt_count + 1 < maxAttempts := by omega
    simp [completeAttempt, hnot]
  · intro acc' fatalReason
    simp [completeAttempt]
  · exact ⟨by decide, by decide⟩

/-- Witness for C4 at a fresh account and `max_attempts = 3`. -/
theorem retryable_requeue_semantics_witness :
    (completeAttempt 3 (.Retryable "Network") scenarioAccount).1.attempt_count =
        scenarioAccount.attempt_count + 1 ∧
    (completeAttempt 3 (.Retryable "Network") scenarioAccount).1.status ≠
        .Failed :=
  ⟨(retryable_requeue_semantics 3 "Network" scenarioAccount (by decide)).1.1,
   (retryable_requeue_semantics 3 "Network" scenarioAccount (by decide)).1.2.1⟩

/-- C5: with at least one active credential for the region (count at most
`K`), `acquire` still has a nonempty candidate set — equal to the full
active set when the window filters everything out, permitting reuse — and
does not fail with `NoAvailableSession`. -/
theorem acquire_fallback_on_small_pool (K : Nat)
    (pool : List SessionCredential) (region : String) (w : List Nat)
    (hne : activeFor pool region ≠ [])
    (_hK : (activeIds pool region).length ≤ K) :
    candidates pool region w ≠ [] ∧
    acquireNoSession pool region = false ∧
    (∀ c ∈ candidates pool region w, c ∈ activeFor pool region) ∧
    (filteredFor pool region w = [] →
      candidates pool region w = activeFor pool region) := by
  refine ⟨?_, ?_, ?_, ?_⟩
  · unfold candidates
    split
    · exact hne
    · next hfne =>
      intro h0
      rw [h0] at hfne
      simp at hfne
  · unfold acquireNoSession
    rw [List.isEmpty_eq_false]
    exact hne
  · intro c hc
    exact mem_candidates_active hc
  · intro hf
    unfold candidates
    rw [if_pos (by simp [hf])]

/-- Witness for C5: a one-credential pool whose only id sits in the
window still yields that credential by fallback. -/
theorem acquire_fallback_on_small_pool_witness :
    candidates fallbackPool "ES" [0] ≠ [] ∧
    acquireNoSession fallbackPool "ES" = false :=
  ⟨(acquire_fallback_on_small_pool 5 fallbackPool "ES" [0] (by decide)
      (by decide)).1,
   (acquire_fallback_on_small_pool 5 fallbackPool "ES" [0] (by decide)
      (by decide)).2.1⟩

/-- C6: `markFailed` deactivates an active credential exactly for the
permanent reasons `Exhausted` and `AuthRejected`; a `Timeout` leaves the
credential untouched (hence still active and selectable, rotating out
only via the window). -/
theorem markFailed_active_semantics (c : SessionCredential) (r : FailReason)
    (h : c.active = true) :
    ((markFailed c r).active = false ↔ r = .Exhausted ∨ r = .AuthRejected) ∧
    (markFailed c .Timeout).active = true ∧
    markFailed c .Timeout = c := by
  cases r <;> simp [markFailed, isPermanent, h]

/-- Witness for C6 on a concrete active credential. -/
theorem markFailed_active_semantics_witness :
    ((markFailed (sampleCred 0) .Timeout).active = true) ∧
    ((markFailed (sampleCred 0) .Exhausted).active = false ↔
      (FailReason.Exhausted = .Exhausted ∨
        FailReason.Exhausted = .AuthRejected)) :=
  ⟨(markFailed_active_semantics (sampleCred 0) .Timeout (by decide)).2.1,
   (markFailed_active_semantics (sampleCred 0) .Exhausted (by decide)).1⟩

/-- C7: `retryFailed` is a no-op returning zero counts when no account is
`Failed`, and in general it re-enqueues (runs to terminal) exactly the
`Failed` accounts with `attempt_count < max_attempts`, leaving every
other row unchanged. -/
theorem retryFailed_noop_and_exact (maxAttempts : Nat)
    (outcomes : Nat → Nat → Outcome) (store : List Account) :
    ((∀ acc ∈ store, acc.status ≠ .Failed) →
        retryFailed maxAttempts outcomes store = (store, 0, 0)) ∧
    (∀ i : Nat, ((retryFailed maxAttempts outcomes store).1)[i]? =
        (store[i]?).map (fun acc =>
          if acc.status = .Failed ∧ acc.attempt_count < maxAttempts then
            runToTerminal maxAttempts (outcomes acc.id) acc
          else acc)) := by
  constructor
  · intro hnof
    have helig : ∀ acc ∈ store, eligibleRetry maxAttempts acc = false := by
      intro acc hacc
      simp [eligibleRetry]
      intro hf
      exact absurd hf (hnof acc hacc)
    have hfil : store.filter (eligibleRetry maxAttempts) = [] := by
      rw [List.filter_eq_nil_iff]
      intro acc hacc
      simp [helig acc hacc]
    have hmap : store.map
        (processIf maxAttempts outcomes (eligibleRetry maxAttempts)) = store := by
      conv_rhs => rw [← List.map_id store]
      apply List.map_congr_left
      intro acc hacc
      simp [processIf, helig acc hacc]
    simp [retryFailed, launchAll, hfil, hmap]
  · intro i
    simp only [retryFailed, launchAll, List.getElem?_map]
    cases hsi : store[i]? with
    | none => rfl
    | some acc =>
      simp [processIf, eligibleRetry]

/-- Witness for C7: a store holding one `Done` account is untouched. -/
theorem retryFailed_noop_and_exact_witness :
    retryFailed 3 allSucceed doneStore = (doneStore, 0, 0) :=
  (retryFailed_noop_and_exact 3 allSucceed doneStore).1 (by decide)

/-- C8: the pacing sleep is skipped exactly for the very first launch
with an empty in-flight set, and every drawn delay lies within
`[min_delay, max_delay]` whenever the random source lies in the unit
interval and the bounds are ordered. -/
theorem pacing_delay_skip_and_range (minDelay maxDelay r : ℚ)
    (firstLaunch inFlightEmpty : Bool)
    (hr0 : 0 ≤ r) (hr1 : r ≤ 1) (hm : minDelay ≤ maxDelay) :
    (pacingDelay minDelay maxDelay r firstLaunch inFlightEmpty = none ↔
      firstLaunch = true ∧ inFlightEmpty = true) ∧
    (∀ d, pacingDelay minDelay maxDelay r firstLaunch inFlightEmpty = some d →
      minDelay ≤ d ∧ d ≤ maxDelay) := by
  have hlow : 0 ≤ r * (maxDelay - minDelay) :=
    mul_nonneg hr0 (by linarith)
  have hhigh : r * (maxDelay - minDelay) ≤ maxDelay - minDelay :=
    mul_le_of_le_one_left (by linarith) hr1
  constructor
  · unfold pacingDelay
    cases firstLaunch <;> cases inFlightEmpty <;> simp
  · intro d hd
    unfold pacingDelay at hd
    cases firstLaunch <;> cases inFlightEmpty <;> simp at hd <;>
      rw [← hd] <;> unfold drawDelay <;> constructor <;> linarith

/-- Witness for C8 at the spec's default bounds. -/
theorem pacing_delay_skip_and_range_witness :
    pacingDelay minDelayDefault maxDelayDefault (1/2) true true = none ∧
    (minDelayDefault ≤ drawDelay minDelayDefault maxDelayDefault (1/2) ∧
      drawDelay minDelayDefault maxDelayDefault (1/2) ≤ maxDelayDefault) :=
  ⟨(pacing_delay_skip_and_range minDelayDefault maxDelayDefault (1/2)
      true true (by norm_num) (by norm_num)
      (by norm_num [minDelayDefault, maxDelayDefault])).1.2 ⟨rfl, rfl⟩,
   (pacing_delay_skip_and_range minDelayDefault maxDelayDefault (1/2)
      false false (by norm_num) (by norm_num)
      (by norm_num [minDelayDefault, maxDelayDefault])).2
      (drawDelay minDelayDefault maxDelayDefault (1/2)) rfl⟩

/-- C9: `validateForm` rejects (and `handleSubmit` sends nothing for)
every form whose `Mobile` starts with a zero or fails the mobile
pattern; and every mobile of 8-10 characters whose first is a digit 1-9
and whose remainder is all digits passes the mobile check. -/
theorem validateForm_mobile_rules :
    (∀ (parse : String → Option Int) (today : Int) (fd : FormData),
        startsWithZero fd.Mobile.data = true ∨
          mobileRegexTest fd.Mobile.data = false →
        validateForm parse today fd = false ∧
          handleSubmit parse today fd = none) ∧
    (∀ (m : String) (c : Char) (rest : List Char),
        m.data = c :: rest → '1' ≤ c → c ≤ '9' →
        rest.all (fun d => d.isDigit) = true →
        7 ≤ rest.length → rest.length ≤ 9 →
        mobileErrors m = []) := by
  constructor
  · intro parse today fd hbad
    have hne := allErrors_ne_nil_of_badMobile parse today fd hbad
    have hv : validateForm parse today fd = false := by
      unfold validateForm
      cases hl : allErrors parse today fd with
      | nil => exact absurd hl hne
      | cons e es => rfl
    exact ⟨hv, by simp [handleSubmit, hv]⟩
  · intro m c rest hm h1 h9 hall h7 h9'
    exact mobileErrors_nil_of_valid m c rest hm h1 h9 hall h7 h9'

/-- Witness for C9: a zero-leading mobile fails validation; a 9-digit
mobile starting with 5 passes the mobile check. -/
theorem validateForm_mobile_rules_witness :
    validateForm noParse 0 zeroMobileForm = false ∧
    mobileErrors "555123456" = [] :=
  ⟨(validateForm_mobile_rules.1 noParse 0 zeroMobileForm
      (Or.inl (by decide))).1,
   validateForm_mobile_rules.2 "555123456" '5'
     ['5', '5', '1', '2', '3', '4', '5', '6'] rfl (by decide) (by decide)
     (by decide) (by decide) (by decide)⟩

/-- C10: `generatePassword` writes the fixed constant into both password
fields, identically on every invocation. -/
theorem generatePassword_constant :
    ∀ fd : FormData,
      (generatePassword fd).Password = "Tesla2024!" ∧
      (generatePassword fd).ConfirmPassword = "Tesla2024!" ∧
      ∀ fd' : FormData,
        (generatePassword fd).Password = (generatePassword fd').Password ∧
        (generatePassword fd).ConfirmPassword =
          (generatePassword fd').ConfirmPassword :=
  fun _ => ⟨rfl, rfl, fun _ => ⟨rfl, rfl⟩⟩

end VisaBot
